import Mathlib

/-!
Shallow embedding of the Label-Check backend persistence layer
(Sequelize models and migrations) and of the lease-queue operations its
specification describes.

Sources embedded:
- QueueItems table migration (unique dataItemId, status ENUM with default,
  nullable lease/completion columns, onDelete actions);
- QueueItem model (QueueItem.init);
- DataItems table migration and DataItem model;
- DataItemVersions table migration and DataItemVersion model
  (dataitemversion.js);
- User model (username/password validation, bcrypt hashing hook,
  verifyPassword).

Tables are lists of records; a create call is state passing returning the
new table state and an Except; a failed constraint check leaves the state
unchanged, as a rolled-back insert does.
-/

namespace LabelCheck

/-- Errors surfaced by the storage layer: ENUM violation, unique-constraint
violation, foreign-key violation, and model-level validation failure. -/
inductive DbError where
  | invalidEnum
  | uniqueViolation
  | fkViolation
  | validationError
deriving DecidableEq, Repr

/-- DataItem record, after the DataItems migration and DataItem.init:
originalLine, identifier, originalLabelText, originalMacroText, accessionId,
stain, blockNumber, isComplete, imageIdentifier. -/
structure DataItem where
  id : Nat
  originalLine : Option String := none
  identifier : Option String := none
  originalLabelText : Option String := none
  originalMacroText : Option String := none
  accessionId : Option String := none
  stain : Option String := none
  blockNumber : Option String := none
  isComplete : Bool := false
  imageIdentifier : Option String := none
deriving DecidableEq, Repr

/-- QueueItem record, after the QueueItems migration and QueueItem.init:
dataItemId (NOT NULL, unique, FK DataItems), status (ENUM, NOT NULL,
default pending), leasedById / completedById (nullable FK Users),
leasedAt / completedAt (nullable DATE, modelled as Nat instants). -/
structure QueueItem where
  id : Nat
  dataItemId : Nat
  status : String
  leasedById : Option Nat := none
  leasedAt : Option Nat := none
  completedById : Option Nat := none
  completedAt : Option Nat := none
deriving DecidableEq, Repr

/-- DataItemVersion record, after DataItemVersion.init in
dataitemversion.js: dataItemId, version, accessionId, stain, blockNumber,
isComplete, changedByUserId. -/
structure DataItemVersion where
  id : Nat
  dataItemId : Nat
  version : Nat
  accessionId : Option String := none
  stain : Option String := none
  blockNumber : Option String := none
  isComplete : Option Bool := none
  changedByUserId : Nat
deriving DecidableEq, Repr

/-- User record, after User.init: username (NOT NULL, unique, notEmpty),
passwordHash (NOT NULL), correctionCount (default 0), isAdmin
(default false). The password attribute is VIRTUAL: it is not a persisted
column, so it is not a field of the stored record. -/
structure User where
  id : Nat
  username : String
  passwordHash : String
  correctionCount : Nat := 0
  isAdmin : Bool := false
deriving DecidableEq, Repr

/-- The persisted state: the four tables created by the migrations. -/
structure Db where
  dataItems : List DataItem := []
  queueItems : List QueueItem := []
  versions : List DataItemVersion := []
  users : List User := []
deriving DecidableEq, Repr

/-- The ENUM declared for QueueItems.status in both the migration and
QueueItem.init: exactly pending, leased, completed. -/
def statusAllowed (s : String) : Bool :=
  s == "pending" || s == "leased" || s == "completed"

/-- Next auto-increment primary key for a table of QueueItems. -/
def nextQueueItemId (db : Db) : Nat :=
  (db.queueItems.map (fun q => q.id)).foldl max 0 + 1

/-- Next auto-increment primary key for the DataItemVersions table. -/
def nextVersionId (db : Db) : Nat :=
  (db.versions.map (fun v => v.id)).foldl max 0 + 1

/-- Next auto-increment primary key for the Users table. -/
def nextUserId (db : Db) : Nat :=
  (db.users.map (fun u => u.id)).foldl max 0 + 1

/-- Input to QueueItem.create: dataItemId is required; status and the
lease/completion columns are optional, Sequelize supplying the declared
default (pending) and NULLs when absent. -/
structure QueueItemInput where
  dataItemId : Nat
  status : Option String := none
  leasedById : Option Nat := none
  leasedAt : Option Nat := none
  completedById : Option Nat := none
  completedAt : Option Nat := none
deriving DecidableEq, Repr

/-- QueueItem.create as constrained by QueueItem.init and the QueueItems
migration: model-level ENUM validation first, then the unique constraint on
dataItemId, then the declared foreign keys (dataItemId references DataItems;
leasedById and completedById reference Users when present). A failure
leaves the table unchanged. -/
def QueueItem.create (db : Db) (inp : QueueItemInput) :
    Db × Except DbError QueueItem :=
  let status := inp.status.getD "pending"
  if !statusAllowed status then (db, Except.error DbError.invalidEnum)
  else if db.queueItems.any (fun q => q.dataItemId == inp.dataItemId) then
    (db, Except.error DbError.uniqueViolation)
  else if !db.dataItems.any (fun d => d.id == inp.dataItemId) then
    (db, Except.error DbError.fkViolation)
  else if !(inp.leasedById.all (fun uid => db.users.any (fun u => u.id == uid))) then
    (db, Except.error DbError.fkViolation)
  else if !(inp.completedById.all (fun uid => db.users.any (fun u => u.id == uid))) then
    (db, Except.error DbError.fkViolation)
  else
    let q : QueueItem :=
      { id := nextQueueItemId db
        dataItemId := inp.dataItemId
        status := status
        leasedById := inp.leasedById
        leasedAt := inp.leasedAt
        completedById := inp.completedById
        completedAt := inp.completedAt }
    ({ db with queueItems := db.queueItems ++ [q] }, Except.ok q)

/-- Nulling of user references on a QueueItem, as the declared onDelete
actions of the QueueItems migration execute it when a User row is deleted:
leasedById SET NULL and completedById SET NULL; every other column is
untouched. -/
def QueueItem.nullUserRefs (uid : Nat) (q : QueueItem) : QueueItem :=
  { q with
    leasedById := if q.leasedById == some uid then none else q.leasedById
    completedById := if q.completedById == some uid then none else q.completedById }

/-- Deletion of a User row as the storage layer executes it under the
declared foreign-key actions: QueueItems.leasedById and
QueueItems.completedById are SET NULL; DataItemVersions.changedByUserId is
onDelete CASCADE, so the user's version rows are deleted. -/
def User.destroy (db : Db) (uid : Nat) : Db :=
  { db with
    users := db.users.filter (fun u => u.id != uid)
    queueItems := db.queueItems.map (QueueItem.nullUserRefs uid)
    versions := db.versions.filter (fun v => v.changedByUserId != uid) }

/-- Deletion of a DataItem row under the declared foreign-key actions:
QueueItems.dataItemId and DataItemVersions.dataItemId are both onDelete
CASCADE. -/
def DataItem.destroy (db : Db) (did : Nat) : Db :=
  { db with
    dataItems := db.dataItems.filter (fun d => d.id != did)
    queueItems := db.queueItems.filter (fun q => q.dataItemId != did)
    versions := db.versions.filter (fun v => v.dataItemId != did) }

/-- Column names of the DataItemVersions table exactly as the
create-data-item-version migration creates it. -/
def dataItemVersionsTableColumns : List String :=
  ["id", "dataItemId", "changedByUserId", "createdAt", "updatedAt"]

/-- Attribute names declared by DataItemVersion.init in
dataitemversion.js. -/
def dataItemVersionModelAttributes : List String :=
  ["dataItemId", "version", "accessionId", "stain", "blockNumber",
   "isComplete", "changedByUserId"]

/-- Duplicate-freeness of a list of keys, used to state the declared
storage constraints. -/
def allDistinct {α : Type} [BEq α] : List α → Bool
  | [] => true
  | x :: xs => !xs.contains x && allDistinct xs

/-- The constraints the code actually declares on the DataItemVersions
table (migration plus DataItemVersion.init): primary-key uniqueness of id,
NOT NULL dataItemId referencing DataItems, NOT NULL changedByUserId
referencing Users. No other constraint is declared. -/
def versionsTableConstraintsOk (db : Db) : Bool :=
  allDistinct (db.versions.map (fun v => v.id)) &&
  db.versions.all (fun v => db.dataItems.any (fun d => d.id == v.dataItemId)) &&
  db.versions.all (fun v => db.users.any (fun u => u.id == v.changedByUserId))

/-- The uniqueness constraint the specification asserts for VersionRecords:
no two rows share the same (WorkItem id, sequence) pair. Stated from the
spec, to be compared with versionsTableConstraintsOk, which is what the
code declares. -/
def specVersionPairUniqueness (db : Db) : Bool :=
  allDistinct (db.versions.map (fun v => (v.dataItemId, v.version)))

/-- Largest version number among a WorkItem's existing VersionRecords
(0 when there are none). -/
def maxVersion (db : Db) (did : Nat) : Nat :=
  (db.versions.filter (fun v => v.dataItemId == did)).foldl
    (fun m v => max m v.version) 0

/-- The corrected field values submitted with a completion, the columns
DataItemVersion.init declares for them. -/
structure CorrectedFields where
  accessionId : Option String := none
  stain : Option String := none
  blockNumber : Option String := none
  isComplete : Option Bool := none
deriving DecidableEq, Repr

/-- Modelled from the spec: AuditTrail.RecordVersion (the route handler
that appends DataItemVersion rows is not under src/). Appends a
VersionRecord for the WorkItem with sequence number previous max plus one,
carrying the corrected field values and the acting user. -/
def recordVersion (db : Db) (did : Nat) (actingUserId : Nat)
    (f : CorrectedFields) : Db × DataItemVersion :=
  let v : DataItemVersion :=
    { id := nextVersionId db
      dataItemId := did
      version := maxVersion db did + 1
      accessionId := f.accessionId
      stain := f.stain
      blockNumber := f.blockNumber
      isComplete := f.isComplete
      changedByUserId := actingUserId }
  ({ db with versions := db.versions ++ [v] }, v)

/-- Error taxonomy of the LeaseQueue operations, from the specification. -/
inductive LeaseError where
  | NoWorkAvailable
  | NotLeased
  | LeaseOwnershipMismatch
deriving DecidableEq, Repr

/-- Lookup of a WorkItem's LeaseRecord by its unique WorkItem reference. -/
def findLease (db : Db) (did : Nat) : Option QueueItem :=
  db.queueItems.find? (fun q => q.dataItemId == did)

/-- Status of the LeaseRecord of a given WorkItem, when one exists. -/
def leaseStatus (db : Db) (did : Nat) : Option String :=
  (findLease db did).map (fun q => q.status)

/-- In-place update of the LeaseRecord addressed by its WorkItem
reference; every other row is untouched. -/
def updateLease (db : Db) (did : Nat) (f : QueueItem → QueueItem) : Db :=
  { db with
    queueItems := db.queueItems.map
      (fun q => if q.dataItemId == did then f q else q) }

/-- One scan step keeping the pending LeaseRecord of least dataItemId. -/
def minPendingStep (acc : Option QueueItem) (q : QueueItem) : Option QueueItem :=
  if q.status == "pending" then
    match acc with
    | none => some q
    | some p => if q.dataItemId < p.dataItemId then some q else some p
  else acc

/-- Least dataItemId pending LeaseRecord, the FIFO-by-creation candidate
of AcquireNext. -/
def minPendingLease (db : Db) : Option QueueItem :=
  db.queueItems.foldl minPendingStep none

/-- Modelled from the spec: LeaseQueue.AcquireNext (the route handlers
implementing the LeaseQueue operations are not under src/). Claims the
pending WorkItem of least id, transitioning its LeaseRecord to leased with
the requesting user and the current instant; yields NoWorkAvailable when no
pending LeaseRecord exists. -/
def acquireNext (db : Db) (user : User) (now : Nat) :
    Db × Except LeaseError QueueItem :=
  match minPendingLease db with
  | none => (db, Except.error LeaseError.NoWorkAvailable)
  | some p =>
    let claimed : QueueItem :=
      { p with status := "leased", leasedById := some user.id, leasedAt := some now }
    (updateLease db p.dataItemId
      (fun q => { q with status := "leased", leasedById := some user.id,
                         leasedAt := some now }),
     Except.ok claimed)

/-- Modelled from the spec: LeaseQueue.Release (the route handlers
implementing the LeaseQueue operations are not under src/). Returns a
leased item to pending, clearing the leasing user and timestamp, only for
the lease holder or an admin; fails with NotLeased unless status is
leased, and with LeaseOwnershipMismatch otherwise. -/
def release (db : Db) (did : Nat) (user : User) :
    Db × Except LeaseError Unit :=
  match findLease db did with
  | none => (db, Except.error LeaseError.NotLeased)
  | some q =>
    if q.status != "leased" then (db, Except.error LeaseError.NotLeased)
    else if q.leasedById != some user.id && !user.isAdmin then
      (db, Except.error LeaseError.LeaseOwnershipMismatch)
    else
      (updateLease db did
        (fun r => { r with status := "pending", leasedById := none, leasedAt := none }),
       Except.ok ())

/-- Modelled from the spec: LeaseQueue.Complete (the route handlers
implementing the LeaseQueue operations are not under src/). Valid only
from status leased and only for the lease holder or an admin; as one
atomic unit it appends the next VersionRecord via recordVersion and
transitions the LeaseRecord to completed with the completing user and
instant. On failure no state changes. -/
def complete (db : Db) (did : Nat) (user : User) (f : CorrectedFields)
    (now : Nat) : Db × Except LeaseError DataItemVersion :=
  match findLease db did with
  | none => (db, Except.error LeaseError.NotLeased)
  | some q =>
    if q.status != "leased" then (db, Except.error LeaseError.NotLeased)
    else if q.leasedById != some user.id && !user.isAdmin then
      (db, Except.error LeaseError.LeaseOwnershipMismatch)
    else
      let step := recordVersion db did user.id f
      (updateLease step.fst did
        (fun r => { r with status := "completed", completedById := some user.id,
                           completedAt := some now }),
       Except.ok step.snd)

/-- Format tag opening a bcrypt digest string, algorithm and cost as the
User model requests them (genSalt(10)). -/
def bcryptTag : List Char := ['$', '2', 'b', '$', '1', '0', '$']

/-- Model of the external bcrypt collaborator's hash: the digest string
carries the tag, the 22-character salt, then the password-derived payload.
bcrypt is a third-party library, not repository code; the model keeps its
contract (digest embeds the salt at a fixed offset; compare re-derives the
digest from the stored salt). -/
def bcryptHashL (salt pw : List Char) : List Char :=
  bcryptTag ++ salt ++ pw

/-- Model of the external bcrypt collaborator's compare: extract the
22-character salt at its fixed offset after the 7-character tag, re-derive
the digest for the candidate password, and compare. -/
def bcryptCompareL (pw h : List Char) : Bool :=
  h == bcryptHashL ((h.drop 7).take 22) pw

/-- String-level bcrypt hash, as stored in User.passwordHash. -/
def bcryptHash (salt pw : String) : String :=
  String.mk (bcryptHashL salt.data pw.data)

/-- String-level bcrypt compare, as used by User.verifyPassword. -/
def bcryptCompare (pw h : String) : Bool :=
  bcryptCompareL pw.data h.data

/-- Model of bcrypt.genSalt(10): a fresh 22-character salt drawn from the
salt alphabet, parameterised by a seed standing for the RNG. -/
def genSalt (seed : Nat) : String :=
  String.mk (List.replicate 22 (Char.ofNat (97 + seed % 26)))

/-- User.verifyPassword from the User model: bcrypt.compare of the
candidate password against the stored passwordHash. -/
def User.verifyPassword (u : User) (password : String) : Bool :=
  bcryptCompare password u.passwordHash

/-- Input to User.create: username and the VIRTUAL password attribute. -/
structure UserInput where
  username : String
  password : String
deriving DecidableEq, Repr

/-- User.create as constrained by User.init and its beforeValidate hook:
the hook hashes the virtual password into passwordHash with a fresh salt;
validation rejects empty username or password (notEmpty); the unique
constraint rejects a duplicate username; correctionCount and isAdmin take
their declared defaults. The virtual password is not stored. -/
def User.create (db : Db) (inp : UserInput) (seed : Nat) :
    Db × Except DbError User :=
  let hash := bcryptHash (genSalt seed) inp.password
  if inp.username == "" then (db, Except.error DbError.validationError)
  else if inp.password == "" then (db, Except.error DbError.validationError)
  else if db.users.any (fun u => u.username == inp.username) then
    (db, Except.error DbError.uniqueViolation)
  else
    let u : User :=
      { id := nextUserId db
        username := inp.username
        passwordHash := hash
        correctionCount := 0
        isAdmin := false }
    ({ db with users := db.users ++ [u] }, Except.ok u)

/-- The unique constraint the QueueItems migration and QueueItem.init
declare on dataItemId, as a table-state invariant. -/
def queueDataItemIdsUnique (db : Db) : Prop :=
  (db.queueItems.map (fun q => q.dataItemId)).Nodup

/-- The ENUM constraint on every stored QueueItem row. -/
def statusesOk (db : Db) : Bool :=
  db.queueItems.all (fun q => statusAllowed q.status)

/-- Version sequence numbers of a WorkItem, in creation order. -/
def versionSeqs (db : Db) (did : Nat) : List Nat :=
  (db.versions.filter (fun v => v.dataItemId == did)).map (fun v => v.version)

/-- A small base state: two DataItems and one reviewer. -/
def baseDb : Db :=
  { dataItems := [{ id := 1 }, { id := 2 }]
    users := [{ id := 7, username := "rev", passwordHash := "h" }] }

/-- State reached from baseDb through QueueItem.create with an explicit
leased status bound to user 7, as the model test does. -/
def leasedDb : Db :=
  (QueueItem.create baseDb
    { dataItemId := 1, status := some "leased",
      leasedById := some 7, leasedAt := some 100 }).fst

/-- State whose LeaseRecord for WorkItem 1 is completed while WorkItem 2
is still pending. -/
def completedDb : Db :=
  { baseDb with
    queueItems :=
      [{ id := 1, dataItemId := 1, status := "completed",
         completedById := some 7, completedAt := some 5 },
       { id := 2, dataItemId := 2, status := "pending" }] }

/-- State holding two DataItemVersion rows that share the same
(dataItemId, version) pair while satisfying every constraint the code
declares on the table. -/
def dupVersionsDb : Db :=
  { dataItems := [{ id := 1 }]
    users := [{ id := 7, username := "rev", passwordHash := "h" }]
    versions :=
      [{ id := 1, dataItemId := 1, version := 1, changedByUserId := 7 },
       { id := 2, dataItemId := 1, version := 1, changedByUserId := 7 }] }

/-- State holding one accepted correction recorded by user 7. -/
def auditDb : Db :=
  { dataItems := [{ id := 1 }]
    users := [{ id := 7, username := "rev", passwordHash := "h" }]
    versions :=
      [{ id := 1, dataItemId := 1, version := 1,
         accessionId := some "ABC-123", changedByUserId := 7 }] }

/-- The reviewer of baseDb. -/
def revUser : User := { id := 7, username := "rev", passwordHash := "h" }

/-- User stored by a create with username testuser, password password123
and RNG seed 0: the hash embeds the tag, the 22-character salt derived
from seed 0, then the payload. -/
def w10U : User :=
  { id := 1, username := "testuser",
    passwordHash := "$2b$10$aaaaaaaaaaaaaaaaaaaaaapassword123" }

/-- State after that single User.create against the empty state. -/
def w10Db1 : Db := { users := [w10U] }

/-- QueueItem row produced by a defaults-only create against baseDb. -/
def c5Q1 : QueueItem := { id := 1, dataItemId := 1, status := "pending" }

/-- State after one defaults-only QueueItem.create against baseDb. -/
def c5Db1 : Db := { baseDb with queueItems := [c5Q1] }

/-- C8: the DataItemVersion model declares the version sequence number and
the corrected field values (accessionId, stain, blockNumber, isComplete)
as attributes, but the DataItemVersions migration creates none of these
columns, so the migrated storage layout does not persist them. -/
theorem C8_migration_omits_version_value_columns :
    ("version" ∈ dataItemVersionModelAttributes ∧
       "version" ∉ dataItemVersionsTableColumns) ∧
    ("accessionId" ∈ dataItemVersionModelAttributes ∧
       "accessionId" ∉ dataItemVersionsTableColumns) ∧
    ("stain" ∈ dataItemVersionModelAttributes ∧
       "stain" ∉ dataItemVersionsTableColumns) ∧
    ("blockNumber" ∈ dataItemVersionModelAttributes ∧
       "blockNumber" ∉ dataItemVersionsTableColumns) ∧
    ("isComplete" ∈ dataItemVersionModelAttributes ∧
       "isComplete" ∉ dataItemVersionsTableColumns) ∧
    ("dataItemId" ∈ dataItemVersionsTableColumns ∧
       "changedByUserId" ∈ dataItemVersionsTableColumns) := by
  decide

/-- C2 counterexample: a table state with two VersionRecords sharing the
pair (dataItemId 1, version 1) satisfies every constraint the migration
and the model declare on DataItemVersions, so no storage-level uniqueness
constraint on (WorkItem id, sequence) exists. -/
theorem C2_counterexample_no_pair_constraint :
    versionsTableConstraintsOk dupVersionsDb = true ∧
    specVersionPairUniqueness dupVersionsDb = false := by
  decide

/-- C3 counterexample: deleting user 7 deletes the VersionRecord of the
correction user 7 made (changedByUserId is onDelete CASCADE), so
VersionRecords are not permanent and the acting-user record is not
retained forever. -/
theorem C3_counterexample_user_delete_cascades :
    auditDb.versions ≠ [] ∧ (User.destroy auditDb 7).versions = [] := by
  decide

/-- C3 amended: a VersionRecord survives unchanged as long as both its
DataItem and its acting user exist, and deletion of either referenced row
cascades it away: exactly the rows referencing the deleted User (resp.
DataItem) disappear, the remaining rows being untouched. -/
theorem C3_version_retention_bounded_by_references :
    ∀ (db : Db) (uid did : Nat) (v : DataItemVersion),
      (v ∈ (User.destroy db uid).versions ↔
         v ∈ db.versions ∧ v.changedByUserId ≠ uid) ∧
      (v ∈ (DataItem.destroy db did).versions ↔
         v ∈ db.versions ∧ v.dataItemId ≠ did) := by
  intro db uid did v
  constructor <;> simp [User.destroy, DataItem.destroy, List.mem_filter]

/-- C9: deleting a User maps every QueueItem row through nullUserRefs,
which nulls a matching leasedById or completedById while leaving id,
dataItemId, status and both timestamps unchanged; concretely, after
deleting user 7 from leasedDb the LeaseRecord of WorkItem 1 still has
status leased but a null leasing-user reference. -/
theorem C9_user_delete_nulls_lease_user_refs :
    (∀ (uid : Nat) (q : QueueItem),
       (QueueItem.nullUserRefs uid q).id = q.id ∧
       (QueueItem.nullUserRefs uid q).dataItemId = q.dataItemId ∧
       (QueueItem.nullUserRefs uid q).status = q.status ∧
       (QueueItem.nullUserRefs uid q).leasedAt = q.leasedAt ∧
       (QueueItem.nullUserRefs uid q).completedAt = q.completedAt ∧
       (QueueItem.nullUserRefs uid q).leasedById =
         (if q.leasedById == some uid then none else q.leasedById) ∧
       (QueueItem.nullUserRefs uid q).completedById =
         (if q.completedById == some uid then none else q.completedById)) ∧
    (∀ (db : Db) (uid : Nat),
       (User.destroy db uid).queueItems =
         db.queueItems.map (QueueItem.nullUserRefs uid)) ∧
    (leaseStatus (User.destroy leasedDb 7) 1 = some "leased" ∧
     (findLease (User.destroy leasedDb 7) 1).map (fun q => q.leasedById) =
       some none) := by
  refine ⟨fun uid q => ?_, fun db uid => rfl, ?_⟩
  · simp [QueueItem.nullUserRefs]
  · decide

/-- Helper: with a valid status value, QueueItem.create fails with the
unique violation when some stored row already references the same
WorkItem, leaving the state unchanged. -/
theorem create_dup_fails {db : Db} {inp : QueueItemInput}
    (hs : statusAllowed (inp.status.getD "pending") = true)
    (h : ∃ q, q ∈ db.queueItems ∧ q.dataItemId = inp.dataItemId) :
    QueueItem.create db inp = (db, Except.error DbError.uniqueViolation) := by
  obtain ⟨q, hq, hdq⟩ := h
  have hany : db.queueItems.any (fun r => r.dataItemId == inp.dataItemId) = true :=
    List.any_eq_true.mpr ⟨q, hq, by simp [hdq]⟩
  simp [QueueItem.create, hs, hany]

/-- Helper: shape of a successful QueueItem.create: the new row is
appended and carries the requested WorkItem reference and status. -/
theorem create_ok_shape {db db1 : Db} {inp : QueueItemInput} {q1 : QueueItem}
    (hok : QueueItem.create db inp = (db1, Except.ok q1)) :
    db1 = { db with queueItems := db.queueItems ++ [q1] } ∧
    q1.dataItemId = inp.dataItemId ∧
    q1.status = inp.status.getD "pending" ∧
    statusAllowed q1.status = true := by
  simp only [QueueItem.create] at hok
  split at hok
  · simp at hok
  next hs1 =>
    split at hok
    · simp at hok
    · split at hok
      · simp at hok
      · split at hok
        · simp at hok
        · split at hok
          · simp at hok
          · injection hok with hA hB
            injection hB with hB
            subst hA
            subst hB
            refine ⟨rfl, rfl, rfl, ?_⟩
            simpa using hs1

/-- C1: at most one LeaseRecord per WorkItem: with a valid status value,
creating a QueueItem whose dataItemId is already referenced fails with the
unique-constraint violation and leaves the state unchanged; and
QueueItem.create preserves duplicate-freeness of the stored dataItemIds. -/
theorem C1_one_lease_per_work_item :
    ∀ (db : Db) (inp : QueueItemInput),
      (statusAllowed (inp.status.getD "pending") = true →
       (∃ q, q ∈ db.queueItems ∧ q.dataItemId = inp.dataItemId) →
       QueueItem.create db inp = (db, Except.error DbError.uniqueViolation)) ∧
      (queueDataItemIdsUnique db →
       queueDataItemIdsUnique (QueueItem.create db inp).fst) := by
  intro db inp
  constructor
  · exact fun hs h => create_dup_fails hs h
  · intro h
    simp only [QueueItem.create]
    split
    · exact h
    · split
      · exact h
      · next hdup =>
        split
        · exact h
        · split
          · exact h
          · split
            · exact h
            · have hnot : ∀ r ∈ db.queueItems, r.dataItemId ≠ inp.dataItemId := by
                intro r hr heq
                exact hdup (List.any_eq_true.mpr ⟨r, hr, by simp [heq]⟩)
              simp only [queueDataItemIdsUnique, List.map_append, List.map_cons,
                List.map_nil] at h ⊢
              rw [List.nodup_append]
              refine ⟨h, List.nodup_singleton _, ?_⟩
              intro a ha hmem
              simp only [List.mem_singleton] at hmem
              obtain ⟨r, hr, rfl⟩ := List.mem_map.mp ha
              exact hnot r hr (hmem ▸ rfl)

/-- C1 witness: creating a second QueueItem for WorkItem 1 against
leasedDb fails with the unique violation, and a create against leasedDb
keeps the stored dataItemIds duplicate-free. -/
theorem C1_witness :
    QueueItem.create leasedDb { dataItemId := 1 } =
      (leasedDb, Except.error DbError.uniqueViolation) ∧
    queueDataItemIdsUnique (QueueItem.create leasedDb { dataItemId := 2 }).fst :=
  ⟨(C1_one_lease_per_work_item leasedDb { dataItemId := 1 }).1 (by decide)
      ⟨{ id := 1, dataItemId := 1, status := "leased",
         leasedById := some 7, leasedAt := some 100 }, by decide, rfl⟩,
   (C1_one_lease_per_work_item leasedDb { dataItemId := 2 }).2
      (by unfold queueDataItemIdsUnique; decide)⟩

/-- C5: after a successful create for a WorkItem, a second create for the
same WorkItem id (with a valid status value) fails with the
unique-constraint violation, the state is unchanged by the failed call,
and the first row is still stored with its WorkItem reference intact. -/
theorem C5_second_create_fails_first_unaffected :
    ∀ (db db1 : Db) (inp inp2 : QueueItemInput) (q1 : QueueItem),
      QueueItem.create db inp = (db1, Except.ok q1) →
      inp2.dataItemId = inp.dataItemId →
      statusAllowed (inp2.status.getD "pending") = true →
      QueueItem.create db1 inp2 = (db1, Except.error DbError.uniqueViolation) ∧
      q1 ∈ db1.queueItems ∧ q1.dataItemId = inp.dataItemId := by
  intro db db1 inp inp2 q1 hok hdid hs
  obtain ⟨hdb1, hq1did, _, _⟩ := create_ok_shape hok
  have hmem : q1 ∈ db1.queueItems := by
    rw [hdb1]
    exact List.mem_append.mpr (Or.inr (List.mem_singleton.mpr rfl))
  exact ⟨create_dup_fails hs ⟨q1, hmem, by rw [hq1did, hdid]⟩, hmem, hq1did⟩

/-- C5 witness: a defaults-only create against baseDb succeeds; repeating
it for the same WorkItem id fails with the unique violation and the first
row is still stored. -/
theorem C5_witness :
    QueueItem.create c5Db1 { dataItemId := 1 } =
      (c5Db1, Except.error DbError.uniqueViolation) ∧
    c5Q1 ∈ c5Db1.queueItems ∧ c5Q1.dataItemId = 1 :=
  C5_second_create_fails_first_unaffected baseDb c5Db1
    { dataItemId := 1 } { dataItemId := 1 } c5Q1 rfl rfl (by decide)

/-- C7: a QueueItem created with no explicit status (and no lease or
completion values) is stored with the declared default status pending and
null leasedById, leasedAt, completedById and completedAt, provided the
WorkItem exists and no LeaseRecord references it yet. -/
theorem C7_create_defaults_to_pending :
    ∀ (db : Db) (did : Nat),
      db.queueItems.any (fun q => q.dataItemId == did) = false →
      db.dataItems.any (fun d => d.id == did) = true →
      QueueItem.create db { dataItemId := did } =
        ({ db with queueItems := db.queueItems ++
            [{ id := nextQueueItemId db, dataItemId := did, status := "pending",
               leasedById := none, leasedAt := none,
               completedById := none, completedAt := none }] },
         Except.ok { id := nextQueueItemId db, dataItemId := did,
                     status := "pending", leasedById := none, leasedAt := none,
                     completedById := none, completedAt := none }) := by
  intro db did h1 h2
  simp [QueueItem.create, h1, h2, statusAllowed]

/-- C7 witness: the defaults-only create against baseDb stores the row at
status pending with null lease and completion fields. -/
theorem C7_witness :
    QueueItem.create baseDb { dataItemId := 1 } =
      ({ baseDb with
         queueItems := [{ id := 1, dataItemId := 1, status := "pending",
                          leasedById := none, leasedAt := none,
                          completedById := none, completedAt := none }] },
       Except.ok { id := 1, dataItemId := 1, status := "pending",
                   leasedById := none, leasedAt := none,
                   completedById := none, completedAt := none }) :=
  C7_create_defaults_to_pending baseDb 1 (by decide) (by decide)

/-- Helper: folding max over 1,2,...,n from 0 yields n. -/
theorem foldl_max_range_one (n : Nat) : (List.range' 1 n).foldl max 0 = n := by
  induction n with
  | zero => rfl
  | succ k ih =>
    rw [List.range'_concat, List.foldl_append, ih]
    simp only [List.foldl_cons, List.foldl_nil]
    omega

/-- Helper: appending a VersionRecord of the same WorkItem extends its
sequence list by that record's version number. -/
theorem versionSeqs_append_own {db : Db} {did : Nat} {v : DataItemVersion}
    (hv : v.dataItemId = did) :
    versionSeqs { db with versions := db.versions ++ [v] } did =
      versionSeqs db did ++ [v.version] := by
  simp [versionSeqs, List.filter_append, hv]

/-- Helper: maxVersion is the fold of max over the version sequence. -/
theorem maxVersion_eq_fold (db : Db) (did : Nat) :
    maxVersion db did = (versionSeqs db did).foldl max 0 := by
  simp [maxVersion, versionSeqs, List.foldl_map]

/-- C2 amended: when a WorkItem's stored sequence numbers are exactly
1,...,n in creation order, the version append (sequence = previous max
plus one) extends them to exactly 1,...,n+1: gaplessness is maintained by
the append operation, not by any storage uniqueness constraint. -/
theorem C2_version_seqs_gapless :
    ∀ (db : Db) (did uid : Nat) (f : CorrectedFields) (n : Nat),
      versionSeqs db did = List.range' 1 n →
      versionSeqs (recordVersion db did uid f).fst did =
        List.range' 1 (n + 1) := by
  intro db did uid f n h
  have hmax : maxVersion db did = n := by
    rw [maxVersion_eq_fold, h, foldl_max_range_one]
  have hfst : (recordVersion db did uid f).fst =
      { db with versions := db.versions ++
          [{ id := nextVersionId db, dataItemId := did,
             version := maxVersion db did + 1, accessionId := f.accessionId,
             stain := f.stain, blockNumber := f.blockNumber,
             isComplete := f.isComplete, changedByUserId := uid }] } := rfl
  rw [hfst, versionSeqs_append_own rfl, h, hmax, List.range'_concat]
  simp [Nat.add_comm]

/-- C2 witness: auditDb stores the single sequence number 1 for WorkItem
1; one more append yields exactly 1, 2. -/
theorem C2_gapless_witness :
    versionSeqs (recordVersion auditDb 1 7 ⟨none, none, none, none⟩).fst 1 =
      List.range' 1 2 :=
  C2_version_seqs_gapless auditDb 1 7 ⟨none, none, none, none⟩ 1 (by decide)

/-- Helper: mapping a status-preserving-or-valid function keeps every
stored status in the ENUM. -/
theorem all_status_map {l : List QueueItem} {f : QueueItem → QueueItem}
    (h : l.all (fun q => statusAllowed q.status) = true)
    (hf : ∀ q, statusAllowed q.status = true → statusAllowed (f q).status = true) :
    (l.map f).all (fun q => statusAllowed q.status) = true := by
  rw [List.all_eq_true] at h ⊢
  intro x hx
  obtain ⟨a, ha, rfl⟩ := List.mem_map.mp hx
  exact hf a (h a ha)

/-- Helper: updateLease keeps every stored status in the ENUM when its
update function does. -/
theorem statusesOk_updateLease {db : Db} {did : Nat} {f : QueueItem → QueueItem}
    (h : statusesOk db = true)
    (hf : ∀ q, statusAllowed q.status = true → statusAllowed (f q).status = true) :
    statusesOk (updateLease db did f) = true := by
  simp only [statusesOk, updateLease] at h ⊢
  apply all_status_map h
  intro q hq
  split
  · exact hf q hq
  · exact hq

/-- C4: the status ENUM is closed: creating with a status outside
{pending, leased, completed} is rejected; a created row's status is in the
ENUM; and every operation over the state (create, acquireNext, release,
complete, user and data-item deletion) keeps all stored statuses inside
the ENUM, so no other value is reachable. -/
theorem C4_status_closed_enum :
    ∀ (db : Db) (inp : QueueItemInput) (s : String) (u : User)
      (did now uid : Nat) (f : CorrectedFields),
      (inp.status = some s → statusAllowed s = false →
        QueueItem.create db inp = (db, Except.error DbError.invalidEnum)) ∧
      (∀ db1 q, QueueItem.create db inp = (db1, Except.ok q) →
        statusAllowed q.status = true) ∧
      (statusesOk db = true → statusesOk (QueueItem.create db inp).fst = true) ∧
      (statusesOk db = true → statusesOk (acquireNext db u now).fst = true) ∧
      (statusesOk db = true → statusesOk (release db did u).fst = true) ∧
      (statusesOk db = true → statusesOk (complete db did u f now).fst = true) ∧
      (statusesOk db = true → statusesOk (User.destroy db uid) = true) ∧
      (statusesOk db = true → statusesOk (DataItem.destroy db did) = true) := by
  intro db inp s u did now uid f
  refine ⟨?_, ?_, ?_, ?_, ?_, ?_, ?_, ?_⟩
  · intro h1 h2
    simp [QueueItem.create, h1, h2]
  · intro db1 q hok
    exact (create_ok_shape hok).2.2.2
  · intro h
    simp only [QueueItem.create]
    split
    · exact h
    next hs1 =>
      split
      · exact h
      · split
        · exact h
        · split
          · exact h
          · split
            · exact h
            · simp only [statusesOk, List.all_append] at h ⊢
              simp [h]
              simpa using hs1
  · intro h
    simp only [acquireNext]
    split
    · exact h
    · exact statusesOk_updateLease h (fun q hq => rfl)
  · intro h
    simp only [release]
    split
    · exact h
    · split
      · exact h
      · split
        · exact h
        · exact statusesOk_updateLease h (fun q hq => rfl)
  · intro h
    simp only [complete]
    split
    · exact h
    · split
      · exact h
      · split
        · exact h
        · exact statusesOk_updateLease h (fun q hq => rfl)
  · intro h
    simp only [statusesOk, User.destroy] at h ⊢
    exact all_status_map h (fun q hq => by simpa [QueueItem.nullUserRefs] using hq)
  · intro h
    simp only [statusesOk, DataItem.destroy] at h ⊢
    rw [List.all_eq_true] at h ⊢
    intro x hx
    exact h x (List.mem_filter.mp hx).1

/-- C4 witness: creating with status bogus against baseDb is rejected with
the ENUM violation, and a defaults-only create keeps all stored statuses
inside the ENUM. -/
theorem C4_witness :
    QueueItem.create baseDb { dataItemId := 1, status := some "bogus" } =
      (baseDb, Except.error DbError.invalidEnum) ∧
    statusesOk (QueueItem.create baseDb { dataItemId := 1 }).fst = true :=
  ⟨(C4_status_closed_enum baseDb { dataItemId := 1, status := some "bogus" }
      "bogus" revUser 1 0 7 ⟨none, none, none, none⟩).1 rfl (by decide),
   (C4_status_closed_enum baseDb { dataItemId := 1 } "x" revUser 1 0 7
      ⟨none, none, none, none⟩).2.2.1 (by decide)⟩

/-- Helper: one scan step yields either the accumulator or a pending row. -/
theorem minPendingStep_some {acc : Option QueueItem} {q p : QueueItem}
    (h : minPendingStep acc q = some p) :
    acc = some p ∨ (p = q ∧ q.status = "pending") := by
  cases acc with
  | none =>
    simp only [minPendingStep] at h
    split at h
    next hpend => exact Or.inr ⟨(Option.some.inj h).symm, by simpa using hpend⟩
    next => exact Or.inl h
  | some a =>
    simp only [minPendingStep] at h
    split at h
    next hpend =>
      split at h
      · exact Or.inr ⟨(Option.some.inj h).symm, by simpa using hpend⟩
      · exact Or.inl h
    next => exact Or.inl h

/-- Helper: the scan yields either the accumulator or a pending member. -/
theorem minPending_fold_mem :
    ∀ (l : List QueueItem) (acc : Option QueueItem) (p : QueueItem),
      l.foldl minPendingStep acc = some p →
      acc = some p ∨ (p ∈ l ∧ p.status = "pending") := by
  intro l
  induction l with
  | nil => exact fun acc p h => Or.inl h
  | cons x xs ih =>
    intro acc p h
    simp only [List.foldl_cons] at h
    rcases ih _ _ h with hacc | ⟨hm, hs⟩
    · rcases minPendingStep_some hacc with h1 | ⟨heq, hs⟩
      · exact Or.inl h1
      · refine Or.inr ?_
        rw [heq]
        exact ⟨List.mem_cons_self x xs, hs⟩
    · exact Or.inr ⟨List.mem_cons_of_mem x hm, hs⟩

/-- Helper: the AcquireNext candidate is a stored pending row. -/
theorem minPendingLease_spec {db : Db} {p : QueueItem}
    (h : minPendingLease db = some p) :
    p ∈ db.queueItems ∧ p.status = "pending" := by
  rcases minPending_fold_mem db.queueItems none p h with hacc | hgood
  · cases hacc
  · exact hgood

/-- Helper: updating the LeaseRecord of another WorkItem does not change
the lease status read for this one, provided the update function preserves
the WorkItem reference. -/
theorem leaseStatus_updateLease_ne {db : Db} {d did : Nat}
    {f : QueueItem → QueueItem}
    (hf : ∀ q, (f q).dataItemId = q.dataItemId) (hne : d ≠ did) :
    leaseStatus (updateLease db d f) did = leaseStatus db did := by
  simp only [leaseStatus, findLease, updateLease]
  rw [List.find?_map]
  have hfun : ((fun q => q.dataItemId == did) ∘
      fun q => if q.dataItemId == d then f q else q) =
      (fun q => q.dataItemId == did) := by
    funext q
    simp only [Function.comp]
    split
    · rw [hf]
    · rfl
  rw [hfun]
  cases hfind : db.queueItems.find? (fun q => q.dataItemId == did) with
  | none => rfl
  | some q =>
    have hqdid : q.dataItemId = did := by
      simpa using List.find?_some hfind
    have hqdP : ¬q.dataItemId = d := by
      rw [hqdid]
      exact fun hc => hne hc.symm
    have hqd : (q.dataItemId == d) = false := by
      simpa using hqdP
    simp [hqd, hqdP]

/-- C6: Complete succeeds only from status leased: when the LeaseRecord of
a WorkItem is pending or completed, Complete fails with NotLeased and the
whole state, the version table included, is unchanged; and completed is
terminal: neither Complete, nor Release, nor AcquireNext (under the
declared uniqueness of dataItemId) moves a completed LeaseRecord out of
the completed status. -/
theorem C6_complete_only_from_leased :
    ∀ (db : Db) (did : Nat) (u u2 : User) (f : CorrectedFields)
      (now now2 : Nat),
      (∀ q, findLease db did = some q →
         q.status = "pending" ∨ q.status = "completed" →
         complete db did u f now = (db, Except.error LeaseError.NotLeased)) ∧
      (leaseStatus db did = some "completed" →
         leaseStatus (complete db did u f now).fst did = some "completed" ∧
         leaseStatus (release db did u).fst did = some "completed" ∧
         (queueDataItemIdsUnique db →
            leaseStatus (acquireNext db u2 now2).fst did = some "completed")) := by
  intro db did u u2 f now now2
  constructor
  · intro q hq hor
    rcases hor with h | h <;> simp [complete, hq, h]
  · intro hcs
    obtain ⟨q, hq, hqs⟩ := Option.map_eq_some'.mp hcs
    have hcomp : complete db did u f now = (db, Except.error LeaseError.NotLeased) := by
      simp [complete, hq, hqs]
    have hrel : release db did u = (db, Except.error LeaseError.NotLeased) := by
      simp [release, hq, hqs]
    refine ⟨by rw [hcomp]; exact hcs, by rw [hrel]; exact hcs, ?_⟩
    intro hnodup
    cases hm : minPendingLease db with
    | none =>
      have : acquireNext db u2 now2 = (db, Except.error LeaseError.NoWorkAvailable) := by
        simp [acquireNext, hm]
      rw [this]
      exact hcs
    | some p =>
      obtain ⟨hpmem, hps⟩ := minPendingLease_spec hm
      have hpne : p.dataItemId ≠ did := by
        intro he
        have hqmem : q ∈ db.queueItems := List.mem_of_find?_eq_some hq
        have hqdid : q.dataItemId = did := by
          simpa using List.find?_some hq
        have hqp : q = p :=
          List.inj_on_of_nodup_map hnodup hqmem hpmem (by rw [hqdid, he])
        rw [hqp, hps] at hqs
        exact absurd hqs (by decide)
      have hfst : (acquireNext db u2 now2).fst =
          updateLease db p.dataItemId
            (fun q => { q with status := "leased", leasedById := some u2.id,
                               leasedAt := some now2 }) := by
        simp [acquireNext, hm]
      rw [hfst, leaseStatus_updateLease_ne
        (f := fun r => { r with status := "leased", leasedById := some u2.id,
                                leasedAt := some now2 })
        (fun r => rfl) hpne]
      exact hcs

/-- C6 witness: against completedDb (WorkItem 1 completed, WorkItem 2
pending), Complete on WorkItem 1 fails with NotLeased leaving the state
unchanged, and AcquireNext leaves WorkItem 1 completed. -/
theorem C6_witness :
    complete completedDb 1 revUser ⟨none, none, none, none⟩ 0 =
      (completedDb, Except.error LeaseError.NotLeased) ∧
    leaseStatus (acquireNext completedDb revUser 0).fst 1 = some "completed" :=
  ⟨(C6_complete_only_from_leased completedDb 1 revUser revUser
      ⟨none, none, none, none⟩ 0 0).1
      { id := 1, dataItemId := 1, status := "completed",
        completedById := some 7, completedAt := some 5 } rfl (Or.inr rfl),
   ((C6_complete_only_from_leased completedDb 1 revUser revUser
      ⟨none, none, none, none⟩ 0 0).2 rfl).2.2
      (by unfold queueDataItemIdsUnique; decide)⟩

/-- Helper: a successful User.create stored the bcrypt hash computed by
the beforeValidate hook from the virtual password and a fresh salt. -/
theorem user_create_ok {db db1 : Db} {inp : UserInput} {seed : Nat} {u : User}
    (hok : User.create db inp seed = (db1, Except.ok u)) :
    u.passwordHash = bcryptHash (genSalt seed) inp.password := by
  simp only [User.create] at hok
  split at hok
  · simp at hok
  · split at hok
    · simp at hok
    · split at hok
      · simp at hok
      · injection hok with hA hB
        injection hB with hB
        subst hB
        rfl

/-- Helper: comparing a password against its own bcrypt digest succeeds,
for any 22-character salt. -/
theorem bcrypt_roundtrip (salt pw : String) (hs : salt.data.length = 22) :
    bcryptCompare pw (bcryptHash salt pw) = true := by
  simp only [bcryptCompare, bcryptHash, bcryptCompareL, bcryptHashL]
  have hdrop : ((bcryptTag ++ salt.data ++ pw.data).drop 7) =
      salt.data ++ pw.data := by
    rw [List.append_assoc]
    exact List.drop_left' (by rfl)
  have htake : (salt.data ++ pw.data).take 22 = salt.data :=
    List.take_left' hs
  rw [hdrop, htake]
  simp

/-- C10: a user created with a non-empty plaintext password stores a
bcrypt digest distinct from the plaintext (the plaintext itself is not a
field of the stored record), and verifyPassword on that user with the same
plaintext returns true. -/
theorem C10_password_hash_roundtrip :
    ∀ (db db1 : Db) (inp : UserInput) (seed : Nat) (u : User),
      inp.password ≠ "" →
      User.create db inp seed = (db1, Except.ok u) →
      u.passwordHash ≠ inp.password ∧
      u.verifyPassword inp.password = true := by
  intro db db1 inp seed u hne hok
  have hh := user_create_ok hok
  constructor
  · rw [hh]
    intro hcontra
    have hlen := congrArg (fun s => s.data.length) hcontra
    simp [bcryptHash, bcryptHashL, bcryptTag, genSalt] at hlen
    omega
  · simp only [User.verifyPassword, hh]
    exact bcrypt_roundtrip (genSalt seed) inp.password (by simp [genSalt])

/-- C10 witness: creating testuser with password123 and seed 0 stores a
digest distinct from the plaintext, and verifyPassword accepts the
plaintext. -/
theorem C10_witness :
    w10U.passwordHash ≠ "password123" ∧
    w10U.verifyPassword "password123" = true :=
  C10_password_hash_roundtrip {} w10Db1
    { username := "testuser", password := "password123" } 0 w10U
    (by decide) rfl

end LabelCheck
